import Mathlib

/-!
# Verification of the AKAZE feature detector/descriptor specification

Shallow embedding of the AKAZE library (`src/src/lib/AKAZE.h` and the
components it declares).  Only the header is available in the source tree;
the bodies of the declared methods live in translation units that are not
present, so those bodies are modelled from the specification (each such
definition carries a doc comment starting `Modelled from the spec:`).
Numeric `float`/`double` grids are modelled with `ℚ` where the computation
is exact and executable, and with `ℝ` where transcendental functions
(`cos`, `exp`, `2^x`) appear.
-/

namespace AKAZE

/- ------------------------------------------------------------------ -/
/- Basic data model: images, keypoints                                 -/
/- ------------------------------------------------------------------ -/

/-- A floating-point image grid (`cv::Mat` of `float`).  `data` is total,
mirroring raw pointer access; valid indices are `[0, width) × [0, height)`. -/
structure Image where
  width : ℤ
  height : ℤ
  data : ℤ → ℤ → ℚ

/-- Modelled from the spec: `check_descriptor_limits` (declared at
`AKAZE.h:238`; body not in the source tree).  "any sample location in image
coordinates must be clamped into valid image bounds before reading a
pixel/gradient value" — clamp `x` into `[0, width-1]` and `y` into
`[0, height-1]`, first raising below-zero coordinates to `0`, then lowering
above-range coordinates to the last valid index. -/
def check_descriptor_limits (x y width height : ℤ) : ℤ × ℤ :=
  let x₁ := if x < 0 then 0 else x
  let y₁ := if y < 0 then 0 else y
  let x₂ := if x₁ > width - 1 then width - 1 else x₁
  let y₂ := if y₁ > height - 1 then height - 1 else y₁
  (x₂, y₂)

/-- Reading a pixel: every read goes through `check_descriptor_limits`
(clamping, never rejection). -/
def Image.read (img : Image) (x y : ℤ) : ℚ :=
  let c := check_descriptor_limits x y img.width img.height
  img.data c.1 c.2

/-- The grid index actually touched by a read at sample location `(x, y)`. -/
def Image.readIndex (img : Image) (x y : ℤ) : ℤ × ℤ :=
  check_descriptor_limits x y img.width img.height

/-- `fRound` (declared at `AKAZE.h:239`).  Modelled from the spec: round a
floating value to the nearest integer, `⌊q + 1/2⌋`. -/
def fRound (q : ℚ) : ℤ := ⌊q + 1/2⌋

/-- A keypoint record (`cv::KeyPoint`): subpixel position, scale `σ`
(`size`), detector response, orientation angle, and the originating
evolution-level index (`class_id`). -/
structure KeyPoint where
  x : ℚ
  y : ℚ
  size : ℚ
  response : ℚ
  angle : ℚ
  class_id : ℕ
deriving DecidableEq

/- ------------------------------------------------------------------ -/
/- AKAZEOptions (AKAZE.h lines 19–55)                                  -/
/- ------------------------------------------------------------------ -/

/-- The default constants referenced by the `AKAZEOptions` constructor.
They live in `config.h`, which is not in the source tree, so their values
are abstract parameters. -/
structure AKAZEDefaults where
  DEFAULT_SCALE_OFFSET : ℚ
  DEFAULT_OCTAVE_MAX : ℤ
  DEFAULT_NSUBLEVELS : ℤ
  DEFAULT_DETECTOR_THRESHOLD : ℚ
  DEFAULT_DIFFUSIVITY_TYPE : ℤ
  DEFAULT_DESCRIPTOR : ℤ
  DEFAULT_LDB_DESCRIPTOR_SIZE : ℤ
  DEFAULT_LDB_CHANNELS : ℤ
  DEFAULT_LDB_PATTERN_SIZE : ℤ
  DEFAULT_SIGMA_SMOOTHING_DERIVATIVES : ℚ
  DEFAULT_SAVE_SCALE_SPACE : Bool
  DEFAULT_SAVE_KEYPOINTS : Bool
  DEFAULT_VERBOSITY : Bool

/-- The `AKAZEOptions` struct (`AKAZE.h:19-37`).  Every field is wrapped in
`Option`: `none` models a field the constructor left uninitialized. -/
structure AKAZEOptions where
  omin : Option ℤ
  omax : Option ℤ
  nsublevels : Option ℤ
  img_width : Option ℤ
  img_height : Option ℤ
  diffusivity : Option ℤ
  soffset : Option ℚ
  sderivatives : Option ℚ
  dthreshold : Option ℚ
  dthreshold2 : Option ℚ
  descriptor : Option ℤ
  descriptor_size : Option ℤ
  descriptor_channels : Option ℤ
  descriptor_pattern_size : Option ℤ
  save_scale_space : Option Bool
  save_keypoints : Option Bool
  verbosity : Option Bool

/-- The `AKAZEOptions()` default constructor (`AKAZE.h:39-55`): it assigns
`soffset`, `omax`, `nsublevels`, `dthreshold`, `diffusivity`, `descriptor`,
`descriptor_size`, `descriptor_channels`, `descriptor_pattern_size`,
`sderivatives`, `save_scale_space`, `save_keypoints` and `verbosity` from
the default constants, and touches no other field. -/
def AKAZEOptions.mk_default (d : AKAZEDefaults) : AKAZEOptions where
  omin := none
  omax := some d.DEFAULT_OCTAVE_MAX
  nsublevels := some d.DEFAULT_NSUBLEVELS
  img_width := none
  img_height := none
  diffusivity := some d.DEFAULT_DIFFUSIVITY_TYPE
  soffset := some d.DEFAULT_SCALE_OFFSET
  sderivatives := some d.DEFAULT_SIGMA_SMOOTHING_DERIVATIVES
  dthreshold := some d.DEFAULT_DETECTOR_THRESHOLD
  dthreshold2 := none
  descriptor := some d.DEFAULT_DESCRIPTOR
  descriptor_size := some d.DEFAULT_LDB_DESCRIPTOR_SIZE
  descriptor_channels := some d.DEFAULT_LDB_CHANNELS
  descriptor_pattern_size := some d.DEFAULT_LDB_PATTERN_SIZE
  save_scale_space := some d.DEFAULT_SAVE_SCALE_SPACE
  save_keypoints := some d.DEFAULT_SAVE_KEYPOINTS
  verbosity := some d.DEFAULT_VERBOSITY

/- ------------------------------------------------------------------ -/
/- Evolution levels and scale values (Allocate_Memory_Evolution)       -/
/- ------------------------------------------------------------------ -/

/-- Modelled from the spec: `Allocate_Memory_Evolution` (`AKAZE.h:190`;
body not in the source tree) creates one level per `(octave, sublevel)`
pair, octave-major: octaves `0 ≤ o < omax`, sublevels `0 ≤ s < nsublevels`
within each octave, appended in that order. -/
def evolutionIndices (omax nsublevels : ℕ) : List (ℕ × ℕ) :=
  (List.range omax).flatMap fun o => (List.range nsublevels).map fun s => (o, s)

/-- Modelled from the spec: the scale of a level,
`σ = soffset · 2^(octave + sublevel / nsublevels)`. -/
noncomputable def esigma (soffset : ℝ) (nsublevels : ℕ) (l : ℕ × ℕ) : ℝ :=
  soffset * (2 : ℝ) ^ ((l.1 : ℝ) + (l.2 : ℝ) / (nsublevels : ℝ))

/-- The exponents `octave·nsublevels + sublevel` enumerate `0, 1, 2, …` in
list order. -/
theorem evolutionIndices_map_exp (omax n : ℕ) :
    (evolutionIndices omax n).map (fun l => l.1 * n + l.2) =
      List.range (omax * n) := by
  induction omax with
  | zero => simp [evolutionIndices]
  | succ m ih =>
      have step : evolutionIndices (m + 1) n =
          evolutionIndices m n ++ (List.range n).map (fun s => (m, s)) := by
        simp [evolutionIndices, List.range_succ]
      rw [step, List.map_append, ih, Nat.succ_mul, List.range_add]
      simp [List.map_map, Function.comp_def, Nat.add_comm]

theorem evolutionIndices_length (omax n : ℕ) :
    (evolutionIndices omax n).length = omax * n := by
  have h := congrArg List.length (evolutionIndices_map_exp omax n)
  simpa using h

theorem evolutionIndices_exp_get (omax n i : ℕ)
    (h : i < (evolutionIndices omax n).length) :
    ((evolutionIndices omax n).get ⟨i, h⟩).1 * n +
      ((evolutionIndices omax n).get ⟨i, h⟩).2 = i := by
  have hmap := evolutionIndices_map_exp omax n
  have hi : i < omax * n := by
    have := evolutionIndices_length omax n
    omega
  have e1 : ((evolutionIndices omax n).map (fun l => l.1 * n + l.2))[i]? = some i := by
    rw [hmap]
    simp [List.getElem?_range, hi]
  rw [List.getElem?_map, List.getElem?_eq_getElem h] at e1
  simpa using e1

/-- The scale of the level at position `i` is `soffset · 2^(i / nsublevels)`. -/
theorem esigma_get (soffset : ℝ) (omax n i : ℕ) (hn : 0 < n)
    (h : i < (evolutionIndices omax n).length) :
    esigma soffset n ((evolutionIndices omax n).get ⟨i, h⟩) =
      soffset * (2 : ℝ) ^ ((i : ℝ) / (n : ℝ)) := by
  have hexp := evolutionIndices_exp_get omax n i h
  have hn' : (n : ℝ) ≠ 0 := Nat.cast_ne_zero.mpr hn.ne'
  have hE : ((((evolutionIndices omax n).get ⟨i, h⟩).1 : ℝ) +
      (((evolutionIndices omax n).get ⟨i, h⟩).2 : ℝ) / (n : ℝ)) = (i : ℝ) / (n : ℝ) := by
    rw [eq_div_iff hn', add_mul, div_mul_cancel₀ _ hn']
    exact_mod_cast hexp
  simp only [esigma]
  rw [hE]

/- ------------------------------------------------------------------ -/
/- FED Step Scheduler (fed.h / fed.cpp, not in the source tree)        -/
/- ------------------------------------------------------------------ -/

/-- Modelled from the spec: the total diffusion time a FED cycle of `n`
inner steps drawn from the stability-bound family can cover,
`bound · n · (n+1) / 3`. -/
def fed_cycle_capacity (bound : ℚ) (n : ℕ) : ℚ := bound * n * (n + 1) / 3

theorem fed_steps_exists (t bound : ℚ) (hb : 0 < bound) (ht : 0 ≤ t) :
    ∃ n : ℕ, t ≤ fed_cycle_capacity bound n := by
  refine ⟨⌈3 * t / bound⌉.toNat, ?_⟩
  set n : ℕ := ⌈3 * t / bound⌉.toNat with hn
  have h0 : (0 : ℤ) ≤ ⌈3 * t / bound⌉ := by
    apply Int.ceil_nonneg
    positivity
  have h1 : 3 * t / bound ≤ (n : ℚ) := by
    calc 3 * t / bound ≤ ((⌈3 * t / bound⌉ : ℤ) : ℚ) := Int.le_ceil _
      _ = (n : ℚ) := by
          rw [hn]
          have h2 := Int.toNat_of_nonneg h0
          exact_mod_cast h2.symm
  have h2 : 3 * t ≤ bound * n := by
    rw [div_le_iff₀ hb] at h1
    linarith
  have h3 : bound * n ≤ bound * n * (n + 1) := by
    nlinarith [hb.le, (Nat.cast_nonneg n : (0 : ℚ) ≤ n)]
  unfold fed_cycle_capacity
  rw [le_div_iff₀ (by norm_num : (0 : ℚ) < 3)]
  linarith

/-- Modelled from the spec: the number of inner FED steps for one cycle of
time span `t` — the fewest `n` for which a cycle of `n` steps of the
family parameterised by the stability bound covers `t`. -/
def fed_num_steps (t bound : ℚ) : ℕ :=
  if h : 0 < bound ∧ 0 ≤ t then Nat.find (fed_steps_exists t bound h.1 h.2) else 0

/-- Modelled from the spec: the unscaled FED step sizes,
`τ_j = bound / (2 · cos²(π · (2j+1) / (4n+2)))` for `j = 0 … n-1`. -/
noncomputable def fed_unscaled_step (bound : ℚ) (n j : ℕ) : ℝ :=
  (bound : ℝ) / (2 * Real.cos (Real.pi * (2 * j + 1) / (4 * n + 2)) ^ 2)

/-- The total of the unscaled steps of a cycle of `n` inner steps. -/
noncomputable def fed_unscaled_total (bound : ℚ) (n : ℕ) : ℝ :=
  ((List.range n).map (fed_unscaled_step bound n)).sum

/-- The common factor applied to the family steps so that the cycle's
total equals the time span allotted to the cycle. -/
noncomputable def fed_cycle_scale (t bound : ℚ) : ℝ :=
  (t : ℝ) / fed_unscaled_total bound (fed_num_steps t bound)

/-- Modelled from the spec: one FED cycle for time span `t` — the family
steps, scaled so that the cycle's total equals the time span allotted to
the cycle. -/
noncomputable def fed_cycle_steps (t bound : ℚ) : List ℝ :=
  (List.range (fed_num_steps t bound)).map fun j =>
    fed_cycle_scale t bound * fed_unscaled_step bound (fed_num_steps t bound) j

/-- Modelled from the spec: `plan(total_time, stability_bound) → ordered
sequence of cycles of step sizes`; all `M` cycles receive the same
fraction `total_time / M` of the stopping time.  (Reordering, when
enabled, permutes the steps inside each cycle and does not change the
step multiset.) -/
noncomputable def fed_plan (total_time bound : ℚ) (M : ℕ) : List (List ℝ) :=
  List.replicate M (fed_cycle_steps (total_time / M) bound)

/-- Every FED sampling angle lies strictly between `0` and `π/2`. -/
theorem fed_angle_mem (n j : ℕ) (h : j < n) :
    Real.pi * (2 * j + 1) / (4 * n + 2) ∈ Set.Ioo 0 (Real.pi / 2) := by
  have hpi := Real.pi_pos
  have hden : (0 : ℝ) < 4 * n + 2 := by positivity
  have hj : (j : ℝ) + 1 ≤ (n : ℝ) := by exact_mod_cast h
  constructor
  · apply div_pos _ hden
    positivity
  · rw [div_lt_div_iff₀ hden two_pos]
    nlinarith

theorem fed_cos_pos (n j : ℕ) (h : j < n) :
    0 < Real.cos (Real.pi * (2 * j + 1) / (4 * n + 2)) := by
  have hm := fed_angle_mem n j h
  apply Real.cos_pos_of_mem_Ioo
  constructor
  · have := Real.pi_pos
    calc -(Real.pi / 2) < 0 := by linarith
      _ < _ := hm.1
  · exact hm.2

theorem fed_unscaled_step_pos (bound : ℚ) (hb : 0 < bound) (n j : ℕ) (h : j < n) :
    0 < fed_unscaled_step bound n j := by
  unfold fed_unscaled_step
  have hc := fed_cos_pos n j h
  have hb' : (0 : ℝ) < (bound : ℝ) := by exact_mod_cast hb
  positivity

/-- If the computed number of steps is `0`, the cycle time span is `0`. -/
theorem fed_num_steps_eq_zero (t bound : ℚ) (hb : 0 < bound) (ht : 0 ≤ t)
    (h : fed_num_steps t bound = 0) : t = 0 := by
  unfold fed_num_steps at h
  rw [dif_pos ⟨hb, ht⟩] at h
  have hspec := Nat.find_spec (fed_steps_exists t bound hb ht)
  rw [h] at hspec
  unfold fed_cycle_capacity at hspec
  simp at hspec
  linarith

/-- If a cycle has at least one inner step, its unscaled total is positive. -/
theorem fed_unscaled_total_pos (bound : ℚ) (n : ℕ) (hb : 0 < bound) (hn : 0 < n) :
    0 < fed_unscaled_total bound n := by
  unfold fed_unscaled_total
  apply List.sum_pos
  · intro x hx
    rw [List.mem_map] at hx
    obtain ⟨j, hj, rfl⟩ := hx
    rw [List.mem_range] at hj
    exact fed_unscaled_step_pos bound hb n j hj
  · intro hnil
    rw [List.map_eq_nil_iff, List.range_eq_nil] at hnil
    omega

/-- If a cycle has at least one inner step, its time span is positive. -/
theorem fed_num_steps_pos_time (t bound : ℚ) (hb : 0 < bound) (ht : 0 ≤ t)
    (h : 0 < fed_num_steps t bound) : 0 < t := by
  by_contra hneg
  have ht0 : t = 0 := le_antisymm (not_lt.mp hneg) ht
  unfold fed_num_steps at h
  rw [dif_pos ⟨hb, ht⟩] at h
  have hle : Nat.find (fed_steps_exists t bound hb ht) ≤ 0 :=
    Nat.find_le (show t ≤ fed_cycle_capacity bound 0 by simp [fed_cycle_capacity, ht0])
  have h0 : 0 < Nat.find (fed_steps_exists t bound hb ht) := h
  omega

/-- The sum of one scaled FED cycle is exactly its allotted time span. -/
theorem fed_cycle_steps_sum (t bound : ℚ) (hb : 0 < bound) (ht : 0 ≤ t) :
    (fed_cycle_steps t bound).sum = (t : ℝ) := by
  unfold fed_cycle_steps
  set n := fed_num_steps t bound with hn
  rcases Nat.eq_zero_or_pos n with h0 | hpos
  · have ht0 : t = 0 := fed_num_steps_eq_zero t bound hb ht h0
    simp [h0, ht0]
  · have hSpos := fed_unscaled_total_pos bound n hb hpos
    have hsum : ((List.range n).map fun j =>
        fed_cycle_scale t bound * fed_unscaled_step bound n j).sum =
        fed_cycle_scale t bound * fed_unscaled_total bound n := by
      rw [List.sum_map_mul_left]
      rfl
    rw [hsum, fed_cycle_scale, ← hn, div_mul_cancel₀ _ hSpos.ne']

/-- The number of inner steps for a cycle time of `1/2` and a stability
bound of `1/4` is `2`. -/
theorem fed_num_steps_half_quarter : fed_num_steps (1/2) (1/4) = 2 := by
  unfold fed_num_steps
  rw [dif_pos (⟨by norm_num, by norm_num⟩ : (0:ℚ) < 1/4 ∧ (0:ℚ) ≤ 1/2)]
  rw [Nat.find_eq_iff]
  refine ⟨by norm_num [fed_cycle_capacity], ?_⟩
  intro k hk
  interval_cases k <;> norm_num [fed_cycle_capacity]

end AKAZE

namespace AKAZE

/- ------------------------------------------------------------------ -/
/- Claim C1                                                            -/
/- ------------------------------------------------------------------ -/

/-- C1: for every evolution sequence the scale-space builder produces, the
scale value is strictly increasing with level index — for every adjacent
pair of levels `i` and `i+1` in the ordered sequence,
`level[i].scale < level[i+1].scale`. -/
theorem C1_scale_strictly_increasing (omax n : ℕ) (soffset : ℝ) (i : ℕ)
    (hs : 0 < soffset) (hn : 0 < n)
    (h : i + 1 < (evolutionIndices omax n).length) :
    esigma soffset n ((evolutionIndices omax n).get ⟨i, Nat.lt_of_succ_lt h⟩) <
      esigma soffset n ((evolutionIndices omax n).get ⟨i + 1, h⟩) := by
  rw [esigma_get soffset omax n i hn (Nat.lt_of_succ_lt h),
    esigma_get soffset omax n (i + 1) hn h]
  have hn' : (0 : ℝ) < (n : ℝ) := by exact_mod_cast hn
  have hexp : (i : ℝ) / (n : ℝ) < ((i + 1 : ℕ) : ℝ) / (n : ℝ) := by
    rw [div_lt_div_iff₀ hn' hn']
    have hcast : (i : ℝ) < ((i + 1 : ℕ) : ℝ) := by exact_mod_cast Nat.lt_succ_self i
    nlinarith
  exact mul_lt_mul_of_pos_left (Real.rpow_lt_rpow_of_exponent_lt one_lt_two hexp) hs

/-- Witness for C1 at `omax = 4`, `nsublevels = 4`, `soffset = 8/5`,
adjacent pair `(1, 2)`. -/
theorem C1_scale_strictly_increasing_witness :
    (0 : ℝ) < 8/5 ∧ 0 < 4 ∧ 1 + 1 < (evolutionIndices 4 4).length ∧
      esigma (8/5) 4 ((evolutionIndices 4 4).get ⟨1, by decide⟩) <
        esigma (8/5) 4 ((evolutionIndices 4 4).get ⟨2, by decide⟩) := by
  refine ⟨by norm_num, by norm_num, by decide, ?_⟩
  exact C1_scale_strictly_increasing 4 4 (8/5) 1 (by norm_num) (by norm_num) (by decide)

/- ------------------------------------------------------------------ -/
/- Claim C2                                                            -/
/- ------------------------------------------------------------------ -/

/-- C2 (amended): for every valid scheduler input (`total_time ≥ 0`,
stability bound `> 0`, at least one cycle), the FED plan's step sizes sum
over all cycles to `total_time`, and every individual step size is
positive.  (Individual steps may exceed the stability bound — only the
aggregated cycle respects it; see `C2_counterexample`.) -/
theorem C2_fed_plan_sum_pos (total bound : ℚ) (M : ℕ)
    (hb : 0 < bound) (ht : 0 ≤ total) (hM : 1 ≤ M) :
    ((fed_plan total bound M).map List.sum).sum = (total : ℝ) ∧
      ∀ τ ∈ (fed_plan total bound M).flatten, 0 < τ := by
  have hM' : ((M : ℚ)) ≠ 0 := by
    have : (0 : ℚ) < M := by exact_mod_cast hM
    exact this.ne'
  have ht' : (0 : ℚ) ≤ total / M := by positivity
  constructor
  · unfold fed_plan
    rw [List.map_replicate, List.sum_replicate, fed_cycle_steps_sum _ _ hb ht',
      nsmul_eq_mul]
    push_cast
    rw [mul_div_cancel₀]
    exact_mod_cast hM'
  · intro τ hτ
    unfold fed_plan at hτ
    rw [List.mem_flatten] at hτ
    obtain ⟨c, hc, hτc⟩ := hτ
    rw [List.mem_replicate] at hc
    rw [hc.2] at hτc
    unfold fed_cycle_steps at hτc
    rw [List.mem_map] at hτc
    obtain ⟨j, hj, rfl⟩ := hτc
    rw [List.mem_range] at hj
    have hnpos : 0 < fed_num_steps (total / M) bound := Nat.pos_of_ne_zero (by omega)
    have htpos : 0 < total / M :=
      fed_num_steps_pos_time (total / M) bound hb ht' hnpos
    have hSpos := fed_unscaled_total_pos bound _ hb hnpos
    have hscale : 0 < fed_cycle_scale (total / M) bound := by
      unfold fed_cycle_scale
      apply div_pos _ hSpos
      exact_mod_cast htpos
    exact mul_pos hscale (fed_unscaled_step_pos bound hb _ j hj)

/-- Witness for C2 at `total_time = 1/2`, `bound = 1/4`, one cycle. -/
theorem C2_fed_plan_sum_pos_witness :
    (0 : ℚ) < 1/4 ∧ (0 : ℚ) ≤ 1/2 ∧ 1 ≤ 1 ∧
      (((fed_plan (1/2) (1/4) 1).map List.sum).sum = (((1:ℚ)/2 : ℚ) : ℝ) ∧
        ∀ τ ∈ (fed_plan (1/2) (1/4) 1).flatten, 0 < τ) :=
  ⟨by norm_num, by norm_num, le_refl 1,
    C2_fed_plan_sum_pos (1/2) (1/4) 1 (by norm_num) (by norm_num) (le_refl 1)⟩

/-- C2 as stated is false: at `total_time = 1/2`, `bound = 1/4` (a valid
input), the second step of the single FED cycle exceeds the stability
bound, so it is not the case that the plan sums to `total_time` AND every
individual step is `≤` the bound. -/
theorem C2_counterexample :
    ¬ ((((fed_plan (1/2) (1/4) 1).map List.sum).sum = (((1:ℚ)/2 : ℚ) : ℝ) ∧
        ∀ τ ∈ (fed_plan (1/2) (1/4) 1).flatten, τ ≤ ((1/4 : ℚ) : ℝ))) := by
  rintro ⟨-, hall⟩
  have hpi := Real.pi_pos
  -- the two family steps of the n = 2 cycle
  set u : ℕ → ℝ := fed_unscaled_step (1/4) 2 with hu
  have hu0 : 0 < u 0 := fed_unscaled_step_pos (1/4) (by norm_num) 2 0 (by norm_num)
  have hu1 : 0 < u 1 := fed_unscaled_step_pos (1/4) (by norm_num) 2 1 (by norm_num)
  have harg : (1/2 : ℚ) / ((1:ℕ):ℚ) = 1/2 := by norm_num
  have hplan : fed_plan (1/2) (1/4) 1 = [fed_cycle_steps (1/2) (1/4)] := by
    unfold fed_plan
    rw [harg]
    rfl
  have hcyc : fed_cycle_steps (1/2) (1/4) =
      [fed_cycle_scale (1/2) (1/4) * u 0, fed_cycle_scale (1/2) (1/4) * u 1] := by
    unfold fed_cycle_steps
    rw [fed_num_steps_half_quarter, hu]
    rfl
  have hS : fed_unscaled_total (1/4) 2 = u 0 + u 1 := by
    unfold fed_unscaled_total
    rw [hu]
    simp [List.range_succ]
  have hscale : fed_cycle_scale (1/2) (1/4) = (((1:ℚ)/2 : ℚ) : ℝ) / (u 0 + u 1) := by
    unfold fed_cycle_scale
    rw [fed_num_steps_half_quarter, hS]
  -- the second step belongs to the flattened plan, so it is ≤ the bound
  have hle : fed_cycle_scale (1/2) (1/4) * u 1 ≤ ((1/4 : ℚ) : ℝ) := by
    apply hall
    rw [hplan]
    simp only [List.flatten, List.append_nil]
    rw [hcyc]
    simp
  have hsum_pos : 0 < u 0 + u 1 := by linarith
  rw [hscale, div_mul_eq_mul_div, div_le_iff₀ hsum_pos] at hle
  push_cast at hle
  -- hle now forces u 1 ≤ u 0, but in fact u 0 < u 1
  have key : u 0 < u 1 := by
    rw [hu]
    unfold fed_unscaled_step
    have e0 : Real.pi * (2 * ((0:ℕ):ℝ) + 1) / (4 * ((2:ℕ):ℝ) + 2) = Real.pi / 10 := by
      norm_num
    have e1 : Real.pi * (2 * ((1:ℕ):ℝ) + 1) / (4 * ((2:ℕ):ℝ) + 2) = Real.pi * 3 / 10 := by
      norm_num
    rw [e0, e1]
    have hc1pos : 0 < Real.cos (Real.pi * 3 / 10) := by
      apply Real.cos_pos_of_mem_Ioo
      constructor
      · linarith
      · linarith
    have hclt : Real.cos (Real.pi * 3 / 10) < Real.cos (Real.pi / 10) := by
      apply Real.cos_lt_cos_of_nonneg_of_le_pi
      · positivity
      · linarith
      · linarith
    have hsq : Real.cos (Real.pi * 3 / 10) ^ 2 < Real.cos (Real.pi / 10) ^ 2 :=
      pow_lt_pow_left₀ hclt hc1pos.le (by norm_num)
    have hc1sq : 0 < Real.cos (Real.pi * 3 / 10) ^ 2 := pow_pos hc1pos 2
    apply div_lt_div_of_pos_left
    · exact_mod_cast (by norm_num : (0:ℚ) < 1/4)
    · linarith
    · linarith
  linarith

/- ------------------------------------------------------------------ -/
/- Claim C10                                                           -/
/- ------------------------------------------------------------------ -/

/-- C10: the `AKAZEOptions` default constructor assigns the default
constants to exactly the fields `soffset`, `omax`, `nsublevels`,
`dthreshold`, `diffusivity`, `descriptor`, `descriptor_size`,
`descriptor_channels`, `descriptor_pattern_size`, `sderivatives`,
`save_scale_space`, `save_keypoints` and `verbosity`, and assigns no value
to `omin`, `img_width`, `img_height` and `dthreshold2`, which remain
uninitialized (`none`) after construction. -/
theorem C10_default_constructor_fields (d : AKAZEDefaults) :
    (AKAZEOptions.mk_default d).soffset = some d.DEFAULT_SCALE_OFFSET ∧
    (AKAZEOptions.mk_default d).omax = some d.DEFAULT_OCTAVE_MAX ∧
    (AKAZEOptions.mk_default d).nsublevels = some d.DEFAULT_NSUBLEVELS ∧
    (AKAZEOptions.mk_default d).dthreshold = some d.DEFAULT_DETECTOR_THRESHOLD ∧
    (AKAZEOptions.mk_default d).diffusivity = some d.DEFAULT_DIFFUSIVITY_TYPE ∧
    (AKAZEOptions.mk_default d).descriptor = some d.DEFAULT_DESCRIPTOR ∧
    (AKAZEOptions.mk_default d).descriptor_size = some d.DEFAULT_LDB_DESCRIPTOR_SIZE ∧
    (AKAZEOptions.mk_default d).descriptor_channels = some d.DEFAULT_LDB_CHANNELS ∧
    (AKAZEOptions.mk_default d).descriptor_pattern_size = some d.DEFAULT_LDB_PATTERN_SIZE ∧
    (AKAZEOptions.mk_default d).sderivatives = some d.DEFAULT_SIGMA_SMOOTHING_DERIVATIVES ∧
    (AKAZEOptions.mk_default d).save_scale_space = some d.DEFAULT_SAVE_SCALE_SPACE ∧
    (AKAZEOptions.mk_default d).save_keypoints = some d.DEFAULT_SAVE_KEYPOINTS ∧
    (AKAZEOptions.mk_default d).verbosity = some d.DEFAULT_VERBOSITY ∧
    (AKAZEOptions.mk_default d).omin = none ∧
    (AKAZEOptions.mk_default d).img_width = none ∧
    (AKAZEOptions.mk_default d).img_height = none ∧
    (AKAZEOptions.mk_default d).dthreshold2 = none :=
  ⟨rfl, rfl, rfl, rfl, rfl, rfl, rfl, rfl, rfl, rfl, rfl, rfl, rfl, rfl, rfl, rfl, rfl⟩

/- ------------------------------------------------------------------ -/
/- Feature_Suppression_Distance (AKAZE.h:199) and Claim C3             -/
/- ------------------------------------------------------------------ -/

/-- The default keypoint, standing in for `cv::KeyPoint()` when a list is
indexed defensively. -/
def kpDefault : KeyPoint := ⟨0, 0, 0, 0, 0, 0⟩

/-- Squared Euclidean distance of two keypoints in the common coordinate
frame. -/
def sqDist (p q : KeyPoint) : ℚ := (p.x - q.x) ^ 2 + (p.y - q.y) ^ 2

/-- Modelled from the spec: for an enumerated pair `i < j` that is too
close, the keypoint that suppression removes — the lower-response one,
with ties broken by retaining the earlier-enumerated keypoint (so the
later one, `j`, is removed on a tie). -/
def suppressTarget (kpts : List KeyPoint) (i j : ℕ) : ℕ :=
  if (kpts.getD i kpDefault).response < (kpts.getD j kpDefault).response then i else j

/-- Modelled from the spec: the separation a pair must respect — "a
configurable multiple of its own scale", the scale being the one of the
keypoint that would be removed (the lower-response one). -/
def suppressThreshold (mult : ℚ) (kpts : List KeyPoint) (i j : ℕ) : ℚ :=
  mult * (kpts.getD (suppressTarget kpts i j) kpDefault).size

/-- The pair `i < j` is closer than its separation threshold (Euclidean
distance below the threshold, decided on squares since distances are
non-negative). -/
def pairTooClose (mult : ℚ) (kpts : List KeyPoint) (i j : ℕ) : Bool :=
  decide (0 < suppressThreshold mult kpts i j) &&
    decide (sqDist (kpts.getD i kpDefault) (kpts.getD j kpDefault) <
      suppressThreshold mult kpts i j ^ 2)

/-- Index `d` is marked for deletion: some enumerated pair `i < j` is too
close and `d` is the member of the pair that suppression removes. -/
def isRemoved (mult : ℚ) (kpts : List KeyPoint) (d : ℕ) : Bool :=
  (List.range kpts.length).any fun i =>
    (List.range kpts.length).any fun j =>
      decide (i < j) && pairTooClose mult kpts i j &&
        decide (suppressTarget kpts i j = d)

/-- The indices that survive distance suppression. -/
def survivorIndices (mult : ℚ) (kpts : List KeyPoint) : List ℕ :=
  (List.range kpts.length).filter fun d => ! isRemoved mult kpts d

/-- Modelled from the spec: `Feature_Suppression_Distance` (`AKAZE.h:199`;
body not in the source tree) — remove every keypoint whose distance to a
higher-response keypoint is below the configured multiple of its own
scale, keep the rest in enumeration order. -/
def Feature_Suppression_Distance (mult : ℚ) (kpts : List KeyPoint) : List KeyPoint :=
  (survivorIndices mult kpts).map fun d => kpts.getD d kpDefault

/-- A surviving index is in range and unmarked. -/
theorem mem_survivorIndices (mult : ℚ) (kpts : List KeyPoint) (d : ℕ) :
    d ∈ survivorIndices mult kpts ↔
      d < kpts.length ∧ isRemoved mult kpts d = false := by
  unfold survivorIndices
  rw [List.mem_filter, List.mem_range]
  simp

/-- If an enumerated pair is too close, its suppression target is marked. -/
theorem isRemoved_of_pairTooClose (mult : ℚ) (kpts : List KeyPoint) (i j : ℕ)
    (hij : i < j) (hj : j < kpts.length)
    (hc : pairTooClose mult kpts i j = true) :
    isRemoved mult kpts (suppressTarget kpts i j) = true := by
  unfold isRemoved
  rw [List.any_eq_true]
  refine ⟨i, List.mem_range.mpr (by omega), ?_⟩
  rw [List.any_eq_true]
  refine ⟨j, List.mem_range.mpr hj, ?_⟩
  simp [hij, hc]

/-- C3: after distance-based suppression, every pair of surviving
keypoints (the survivors are `kpts.getD d kpDefault` for
`d ∈ survivorIndices`, in enumeration order) is at Euclidean distance at
least the configured multiple of the smaller (lower-response) keypoint's
scale; and whenever an enumerated pair is closer than that, the
lower-response keypoint (ties: the later-enumerated one) is the one
removed — its index does not survive. -/
theorem C3_suppression_separation (mult : ℚ) (kpts : List KeyPoint) :
    (∀ d₁ d₂ : ℕ, d₁ < d₂ →
      d₁ ∈ survivorIndices mult kpts → d₂ ∈ survivorIndices mult kpts →
      ((suppressThreshold mult kpts d₁ d₂ : ℚ) : ℝ) ≤
        Real.sqrt ((sqDist (kpts.getD d₁ kpDefault) (kpts.getD d₂ kpDefault) : ℚ) : ℝ)) ∧
    (∀ i j : ℕ, i < j → j < kpts.length → pairTooClose mult kpts i j = true →
      suppressTarget kpts i j ∉ survivorIndices mult kpts) := by
  constructor
  · intro d₁ d₂ hlt h₁ h₂
    rw [mem_survivorIndices] at h₁ h₂
    by_cases hc : pairTooClose mult kpts d₁ d₂ = true
    · exfalso
      have hmark := isRemoved_of_pairTooClose mult kpts d₁ d₂ hlt h₂.1 hc
      unfold suppressTarget at hmark
      by_cases hresp : (kpts.getD d₁ kpDefault).response < (kpts.getD d₂ kpDefault).response
      · rw [if_pos hresp] at hmark
        rw [h₁.2] at hmark
        exact Bool.false_ne_true hmark
      · rw [if_neg hresp] at hmark
        rw [h₂.2] at hmark
        exact Bool.false_ne_true hmark
    · unfold pairTooClose at hc
      rw [Bool.and_eq_true, decide_eq_true_eq, decide_eq_true_eq] at hc
      push_neg at hc
      by_cases hthr : 0 < suppressThreshold mult kpts d₁ d₂
      · have hsq := hc hthr
        have hthr' : (0 : ℝ) < ((suppressThreshold mult kpts d₁ d₂ : ℚ) : ℝ) := by
          exact_mod_cast hthr
        have hsq' : ((suppressThreshold mult kpts d₁ d₂ : ℚ) : ℝ) ^ 2 ≤
            ((sqDist (kpts.getD d₁ kpDefault) (kpts.getD d₂ kpDefault) : ℚ) : ℝ) := by
          exact_mod_cast hsq
        calc ((suppressThreshold mult kpts d₁ d₂ : ℚ) : ℝ)
            = Real.sqrt (((suppressThreshold mult kpts d₁ d₂ : ℚ) : ℝ) ^ 2) :=
              (Real.sqrt_sq hthr'.le).symm
          _ ≤ _ := Real.sqrt_le_sqrt hsq'
      · have hle : ((suppressThreshold mult kpts d₁ d₂ : ℚ) : ℝ) ≤ 0 := by
          exact_mod_cast not_lt.mp hthr
        exact le_trans hle (Real.sqrt_nonneg _)
  · intro i j hij hjlen hc hmem
    have hmark := isRemoved_of_pairTooClose mult kpts i j hij hjlen hc
    rw [mem_survivorIndices] at hmem
    rw [hmem.2] at hmark
    exact Bool.false_ne_true hmark

/-- Three concrete keypoints: the first two are 1 apart (closer than the
threshold `1 × 2`), the third is far away; responses `5`, `3`, `4`. -/
def sampleKpts : List KeyPoint :=
  [⟨0, 0, 2, 5, 0, 0⟩, ⟨1, 0, 2, 3, 0, 0⟩, ⟨10, 0, 2, 4, 0, 0⟩]

/-- Witness for C3 on `sampleKpts` with multiple `1`: indices `0` and `2`
survive and respect the separation bound; the pair `(0, 1)` is too close
and its lower-response member is removed. -/
theorem C3_suppression_separation_witness :
    ((0 : ℕ) < 2 ∧ 0 ∈ survivorIndices 1 sampleKpts ∧ 2 ∈ survivorIndices 1 sampleKpts ∧
      ((suppressThreshold 1 sampleKpts 0 2 : ℚ) : ℝ) ≤
        Real.sqrt ((sqDist (sampleKpts.getD 0 kpDefault) (sampleKpts.getD 2 kpDefault) : ℚ) : ℝ)) ∧
    ((0 : ℕ) < 1 ∧ 1 < sampleKpts.length ∧ pairTooClose 1 sampleKpts 0 1 = true ∧
      suppressTarget sampleKpts 0 1 ∉ survivorIndices 1 sampleKpts) := by
  have hclose01 : pairTooClose 1 sampleKpts 0 1 = true := by
    simp only [pairTooClose, Bool.and_eq_true, decide_eq_true_eq]
    constructor <;>
      norm_num [suppressThreshold, suppressTarget, sqDist, sampleKpts, kpDefault, List.getD]
  have hrem0 : isRemoved 1 sampleKpts 0 = false := by
    rw [Bool.eq_false_iff]
    unfold isRemoved
    intro hcontra
    rw [List.any_eq_true] at hcontra
    obtain ⟨i, hi, hinner⟩ := hcontra
    rw [List.any_eq_true] at hinner
    obtain ⟨j, hj, hcond⟩ := hinner
    have hlen3 : sampleKpts.length = 3 := by simp [sampleKpts]
    rw [List.mem_range, hlen3] at hi hj
    rw [Bool.and_eq_true, Bool.and_eq_true, decide_eq_true_eq, decide_eq_true_eq] at hcond
    obtain ⟨⟨hij, hcl⟩, htar⟩ := hcond
    interval_cases i <;> interval_cases j <;> revert hij hcl htar <;>
      norm_num [pairTooClose, suppressThreshold, suppressTarget, sqDist, sampleKpts,
        kpDefault, List.getD]
  have hrem2 : isRemoved 1 sampleKpts 2 = false := by
    rw [Bool.eq_false_iff]
    unfold isRemoved
    intro hcontra
    rw [List.any_eq_true] at hcontra
    obtain ⟨i, hi, hinner⟩ := hcontra
    rw [List.any_eq_true] at hinner
    obtain ⟨j, hj, hcond⟩ := hinner
    have hlen3 : sampleKpts.length = 3 := by simp [sampleKpts]
    rw [List.mem_range, hlen3] at hi hj
    rw [Bool.and_eq_true, Bool.and_eq_true, decide_eq_true_eq, decide_eq_true_eq] at hcond
    obtain ⟨⟨hij, hcl⟩, htar⟩ := hcond
    interval_cases i <;> interval_cases j <;> revert hij hcl htar <;>
      norm_num [pairTooClose, suppressThreshold, suppressTarget, sqDist, sampleKpts,
        kpDefault, List.getD]
  have hlen : sampleKpts.length = 3 := by simp [sampleKpts]
  have hm0 : 0 ∈ survivorIndices 1 sampleKpts := by
    rw [mem_survivorIndices]
    exact ⟨by omega, hrem0⟩
  have hm2 : 2 ∈ survivorIndices 1 sampleKpts := by
    rw [mem_survivorIndices]
    exact ⟨by omega, hrem2⟩
  refine ⟨⟨by norm_num, hm0, hm2, ?_⟩, ⟨by norm_num, by omega, hclose01, ?_⟩⟩
  · exact (C3_suppression_separation 1 sampleKpts).1 0 2 (by norm_num) hm0 hm2
  · exact (C3_suppression_separation 1 sampleKpts).2 0 1 (by norm_num) (by omega) hclose01

/- ------------------------------------------------------------------ -/
/- Evolution level records and detector grids                          -/
/- ------------------------------------------------------------------ -/

/-- The all-zero image. -/
def zeroImage : Image := ⟨0, 0, fun _ _ => 0⟩

/-- One entry of the nonlinear scale space (`tevolution`, the element type
of `evolution_` at `AKAZE.h:113`; its definition lives in a header not in
the source tree and is modelled from the spec's EvolutionLevel):
the diffused image `Lt`, the diffusivity grid `Lflow`, first- and
second-order derivative grids, the detector response `Ldet`, the scale
`esigma`, the evolution time `etime`, and octave/sublevel indices. -/
structure tevolution where
  Lt : Image
  Lflow : Image
  Lx : Image
  Ly : Image
  Lxx : Image
  Lxy : Image
  Lyy : Image
  Ldet : Image
  esigma : ℚ
  etime : ℚ
  octave : ℕ
  sublevel : ℕ

/-- The default (empty) evolution level. -/
def tevoDefault : tevolution :=
  ⟨zeroImage, zeroImage, zeroImage, zeroImage, zeroImage, zeroImage, zeroImage,
    zeroImage, 0, 0, 0, 0⟩

/-- Modelled from the spec: central-difference first derivative along `x`
(a stand-in for the Scharr-style operator of the external image-operations
library); every read is clamped. -/
def derivX (img : Image) : Image :=
  ⟨img.width, img.height, fun i j => (img.read (i + 1) j - img.read (i - 1) j) / 2⟩

/-- Modelled from the spec: central-difference first derivative along `y`. -/
def derivY (img : Image) : Image :=
  ⟨img.width, img.height, fun i j => (img.read i (j + 1) - img.read i (j - 1)) / 2⟩

/-- Modelled from the spec: `Compute_Multiscale_Derivatives` and
`Compute_Determinant_Hessian_Response` (`AKAZE.h:195-196`; bodies not in
the source tree) for one level — fill the derivative grids from the
level's own image and form the σ⁴-normalized determinant-of-Hessian
response `det(H) = Lxx·Lyy − Lxy²`. -/
def computeLevelResponse (l : tevolution) : tevolution :=
  let lx := derivX l.Lt
  let ly := derivY l.Lt
  let lxx := derivX lx
  let lxy := derivY lx
  let lyy := derivY ly
  { l with
    Lx := lx, Ly := ly, Lxx := lxx, Lxy := lxy, Lyy := lyy,
    Ldet := ⟨l.Lt.width, l.Lt.height, fun i j =>
      l.esigma ^ 4 * (lxx.read i j * lyy.read i j - lxy.read i j ^ 2)⟩ }

/-- Modelled from the spec: a pixel is a candidate extremum when its
response exceeds the threshold and is the strict maximum among its
same-level 8-neighbours. -/
def isExtremum (resp : Image) (threshold : ℚ) (i j : ℤ) : Bool :=
  decide (threshold < resp.read i j) &&
    ([(-1, -1), (-1, 0), (-1, 1), (0, -1), (0, 1), (1, -1), (1, 0), (1, 1)] :
        List (ℤ × ℤ)).all fun d =>
      decide (resp.read (i + d.1) (j + d.2) < resp.read i j)

/-- Candidate keypoints of one level, in row-major enumeration order. -/
def levelExtrema (lvl : tevolution) (lidx : ℕ) (threshold : ℚ) : List KeyPoint :=
  (List.range lvl.Ldet.width.toNat).flatMap fun i =>
    (List.range lvl.Ldet.height.toNat).filterMap fun j =>
      if isExtremum lvl.Ldet threshold (i : ℤ) (j : ℤ) then
        some ⟨(i : ℤ), (j : ℤ), lvl.esigma, lvl.Ldet.read (i : ℤ) (j : ℤ), 0, lidx⟩
      else none

/-- Modelled from the spec: `Find_Scale_Space_Extrema` (`AKAZE.h:197`;
body not in the source tree) — per-level candidate extrema, appended in
level order (detection order). -/
def Find_Scale_Space_Extrema (evo : List tevolution) (threshold : ℚ) : List KeyPoint :=
  (List.range evo.length).flatMap fun l =>
    levelExtrema (evo.getD l tevoDefault) l threshold

/- ------------------------------------------------------------------ -/
/- Do_Subpixel_Refinement (AKAZE.h:198) and Claim C4                   -/
/- ------------------------------------------------------------------ -/

/-- The detector response at `(i, j)` of evolution level `l` (clamped
reads). -/
def respAt (evo : List tevolution) (l : ℕ) (i j : ℤ) : ℚ :=
  ((evo.getD l tevoDefault).Ldet).read i j

/-- Modelled from the spec: the subpixel/subscale quadratic fit — a 3×3×3
finite-difference Hessian and gradient of the response over `(x, y,
scale-index)` at the candidate's rounded position (the scale direction
uses the adjacent finer and coarser levels, clamping at the first level),
solved by Cramer's rule; `none` when the system is singular. -/
def quadraticFit (evo : List tevolution) (kpt : KeyPoint) : Option (ℚ × ℚ × ℚ) :=
  let i : ℤ := fRound kpt.x
  let j : ℤ := fRound kpt.y
  let Rm : ℤ → ℤ → ℚ := fun di dj => respAt evo (kpt.class_id - 1) (i + di) (j + dj)
  let R0 : ℤ → ℤ → ℚ := fun di dj => respAt evo kpt.class_id (i + di) (j + dj)
  let Rp : ℤ → ℤ → ℚ := fun di dj => respAt evo (kpt.class_id + 1) (i + di) (j + dj)
  let Dx := (R0 1 0 - R0 (-1) 0) / 2
  let Dy := (R0 0 1 - R0 0 (-1)) / 2
  let Ds := (Rp 0 0 - Rm 0 0) / 2
  let Dxx := R0 1 0 - 2 * R0 0 0 + R0 (-1) 0
  let Dyy := R0 0 1 - 2 * R0 0 0 + R0 0 (-1)
  let Dss := Rp 0 0 - 2 * R0 0 0 + Rm 0 0
  let Dxy := (R0 1 1 + R0 (-1) (-1) - R0 1 (-1) - R0 (-1) 1) / 4
  let Dxs := (Rp 1 0 + Rm (-1) 0 - Rp (-1) 0 - Rm 1 0) / 4
  let Dys := (Rp 0 1 + Rm 0 (-1) - Rp 0 (-1) - Rm 0 1) / 4
  let det := Dxx * (Dyy * Dss - Dys * Dys) - Dxy * (Dxy * Dss - Dys * Dxs) +
    Dxs * (Dxy * Dys - Dyy * Dxs)
  if det = 0 then none
  else
    let det1 := (-Dx) * (Dyy * Dss - Dys * Dys) - (-Dy) * (Dxy * Dss - Dxs * Dys) +
      (-Ds) * (Dxy * Dys - Dxs * Dyy)
    let det2 := Dxx * ((-Dy) * Dss - Dys * (-Ds)) - Dxy * ((-Dx) * Dss - (-Ds) * Dxs) +
      Dxs * ((-Dx) * Dys - (-Dy) * Dxs)
    let det3 := Dxx * (Dyy * (-Ds) - (-Dy) * Dys) - Dxy * (Dxy * (-Ds) - (-Dy) * Dxs) +
      (-Dx) * (Dxy * Dys - Dyy * Dxs)
    some (det1 / det, det2 / det, det3 / det)

/-- The refined position stays inside the level's image bounds. -/
def refinedInBounds (evo : List tevolution) (kpt : KeyPoint) (d : ℚ × ℚ × ℚ) : Prop :=
  0 ≤ kpt.x + d.1 ∧ kpt.x + d.1 ≤ (((evo.getD kpt.class_id tevoDefault).Ldet).width : ℚ) - 1 ∧
  0 ≤ kpt.y + d.2.1 ∧ kpt.y + d.2.1 ≤ (((evo.getD kpt.class_id tevoDefault).Ldet).height : ℚ) - 1

instance (evo : List tevolution) (kpt : KeyPoint) (d : ℚ × ℚ × ℚ) :
    Decidable (refinedInBounds evo kpt d) := by
  unfold refinedInBounds
  infer_instance

/-- Modelled from the spec: refine a single candidate — solve the
quadratic fit and discard the candidate (return `none`) if the solved
offset exceeds half a pixel/level in any axis (unstable fit) or if it
moves outside image bounds; otherwise move the keypoint by the offset. -/
def refineOne (evo : List tevolution) (kpt : KeyPoint) : Option KeyPoint :=
  match quadraticFit evo kpt with
  | none => none
  | some d =>
      if |d.1| ≤ 1/2 ∧ |d.2.1| ≤ 1/2 ∧ |d.2.2| ≤ 1/2 then
        if refinedInBounds evo kpt d then
          some { kpt with x := kpt.x + d.1, y := kpt.y + d.2.1 }
        else none
      else none

/-- Modelled from the spec: `Do_Subpixel_Refinement` (`AKAZE.h:198`; body
not in the source tree) — refine every candidate, silently dropping the
discarded ones and keeping the rest in order. -/
def Do_Subpixel_Refinement (evo : List tevolution) (kpts : List KeyPoint) : List KeyPoint :=
  kpts.filterMap (refineOne evo)

/-- The solved offset of a candidate is unstable: the fit solved to an
offset exceeding half a pixel/level in some axis, or the refined position
leaves the image bounds. -/
def offsetUnstable (evo : List tevolution) (kpt : KeyPoint) : Prop :=
  ∃ d : ℚ × ℚ × ℚ, quadraticFit evo kpt = some d ∧
    (1/2 < |d.1| ∨ 1/2 < |d.2.1| ∨ 1/2 < |d.2.2| ∨ ¬ refinedInBounds evo kpt d)

/-- An unstable candidate is discarded. -/
theorem refineOne_unstable_eq_none (evo : List tevolution) (kpt : KeyPoint)
    (h : offsetUnstable evo kpt) : refineOne evo kpt = none := by
  obtain ⟨d, hfit, hbad⟩ := h
  unfold refineOne
  rw [hfit]
  dsimp only
  rcases hbad with h1 | h1 | h1 | h1
  · rw [if_neg]
    intro hall
    exact absurd hall.1 (not_le.mpr h1)
  · rw [if_neg]
    intro hall
    exact absurd hall.2.1 (not_le.mpr h1)
  · rw [if_neg]
    intro hall
    exact absurd hall.2.2 (not_le.mpr h1)
  · by_cases hhalf : |d.1| ≤ 1/2 ∧ |d.2.1| ≤ 1/2 ∧ |d.2.2| ≤ 1/2
    · rw [if_pos hhalf, if_neg h1]
    · rw [if_neg hhalf]

/-- C4: a candidate whose solved quadratic-fit offset exceeds half a
pixel/level in any axis, or whose refined position leaves the image
bounds, is discarded, and only that candidate is affected: refinement of
the remaining keypoints proceeds unchanged (the output is exactly the
refinement of the other keypoints, in order), and the refinement stage is
total — it never fails. -/
theorem C4_unstable_candidate_discarded (evo : List tevolution)
    (l₁ l₂ : List KeyPoint) (bad : KeyPoint) (h : offsetUnstable evo bad) :
    refineOne evo bad = none ∧
      Do_Subpixel_Refinement evo (l₁ ++ bad :: l₂) =
        Do_Subpixel_Refinement evo l₁ ++ Do_Subpixel_Refinement evo l₂ := by
  have hnone := refineOne_unstable_eq_none evo bad h
  refine ⟨hnone, ?_⟩
  unfold Do_Subpixel_Refinement
  rw [List.filterMap_append, List.filterMap_cons, hnone]

/-- A concrete 10×10 response with its peak at `x = 13/5`, used to witness
an unstable quadratic fit (offset `3/5` along `x`). -/
def sampleResponse (k : ℚ) : Image :=
  ⟨10, 10, fun i j => -((i : ℚ) - 13/5) ^ 2 - ((j : ℚ) - 5) ^ 2 - (k - 1) ^ 2⟩

/-- Three concrete evolution levels carrying `sampleResponse`. -/
def sampleEvo : List tevolution :=
  [{ tevoDefault with Ldet := sampleResponse 0 },
   { tevoDefault with Ldet := sampleResponse 1 },
   { tevoDefault with Ldet := sampleResponse 2 }]

/-- A candidate at `(2, 5)` on level `1` of `sampleEvo`; its quadratic fit
solves to the offset `(3/5, 0, 0)`, which exceeds half a pixel. -/
def sampleBad : KeyPoint := ⟨2, 5, 1, 0, 0, 1⟩

/-- Witness for C4 on `sampleEvo`: the fit of `sampleBad` solves to
`(3/5, 0, 0)`, the candidate is discarded, and the other keypoints are
refined as if it were absent. -/
theorem C4_unstable_candidate_discarded_witness :
    offsetUnstable sampleEvo sampleBad ∧
      (refineOne sampleEvo sampleBad = none ∧
        Do_Subpixel_Refinement sampleEvo ([kpDefault] ++ sampleBad :: []) =
          Do_Subpixel_Refinement sampleEvo [kpDefault] ++
            Do_Subpixel_Refinement sampleEvo []) := by
  have hfit : quadraticFit sampleEvo sampleBad = some (3/5, 0, 0) := by
    norm_num [quadraticFit, respAt, sampleEvo, sampleBad, sampleResponse, tevoDefault,
      Image.read, check_descriptor_limits, fRound, List.getD, Int.toNat_ofNat,
      Int.toNat_zero, Int.toNat_one]
  have habs : |(3/5 : ℚ)| = 3/5 := abs_of_nonneg (by norm_num)
  have hun : offsetUnstable sampleEvo sampleBad :=
    ⟨(3/5, 0, 0), hfit, Or.inl (by rw [habs]; norm_num)⟩
  exact ⟨hun, C4_unstable_candidate_discarded sampleEvo [kpDefault] [] sampleBad hun⟩


/- ------------------------------------------------------------------ -/
/- Descriptor extractor: SURF family (AKAZE.h:206-211)                 -/
/- ------------------------------------------------------------------ -/

/-- `gaussian` (declared at `AKAZE.h:237`; body not in the source tree).
Modelled from the spec: the Gaussian weighting kernel
`exp(−(x² + y²) / (2σ²))`. -/
noncomputable def gaussian (x y sigma : ℝ) : ℝ :=
  Real.exp (-(x ^ 2 + y ^ 2) / (2 * sigma ^ 2))

/-- Rounding a real sample coordinate to the nearest integer pixel. -/
noncomputable def roundR (r : ℝ) : ℤ := ⌊r + 1/2⌋

/-- Modelled from the spec: the Gaussian-weighted sum of gradient vectors
over the σ-scaled circular neighbourhood of the keypoint, the quantity
whose dominant direction orientation estimation extracts. -/
noncomputable def orientationVec (lvl : tevolution) (kpt : KeyPoint) : ℝ × ℝ :=
  (∑ a ∈ Finset.range 13, ∑ b ∈ Finset.range 13,
      (if ((a : ℤ) - 6) ^ 2 + ((b : ℤ) - 6) ^ 2 ≤ 36 then
        gaussian ((a : ℝ) - 6) ((b : ℝ) - 6) (5/2) *
          (lvl.Lx.read (fRound kpt.x + ((a : ℤ) - 6) * fRound kpt.size)
            (fRound kpt.y + ((b : ℤ) - 6) * fRound kpt.size) : ℝ)
      else 0),
   ∑ a ∈ Finset.range 13, ∑ b ∈ Finset.range 13,
      (if ((a : ℤ) - 6) ^ 2 + ((b : ℤ) - 6) ^ 2 ≤ 36 then
        gaussian ((a : ℝ) - 6) ((b : ℝ) - 6) (5/2) *
          (lvl.Ly.read (fRound kpt.x + ((a : ℤ) - 6) * fRound kpt.size)
            (fRound kpt.y + ((b : ℤ) - 6) * fRound kpt.size) : ℝ)
      else 0))

/-- Modelled from the spec: `Compute_Main_Orientation_SURF` (`AKAZE.h:203`;
body not in the source tree) — the dominant orientation of the keypoint,
returned as the unit vector `(cos θ, sin θ)` of the direction of the
accumulated gradient sum (the C++ method stores the angle in
`kpt.angle`).  Deterministic given identical input grids. -/
noncomputable def Compute_Main_Orientation_SURF (lvl : tevolution) (kpt : KeyPoint) : ℝ × ℝ :=
  let v := orientationVec lvl kpt
  (v.1 / Real.sqrt (v.1 ^ 2 + v.2 ^ 2), v.2 / Real.sqrt (v.1 ^ 2 + v.2 ^ 2))

/-- Modelled from the spec: the accumulated (unnormalized) SURF-family
descriptor — a regular 4×4 grid of sub-patches around the keypoint, each
sampled on a 5×5 grid at scale-proportional spacing, the local gradient
rotated into the keypoint frame `(c, s)` and Gaussian-weighted, the four
statistics `(Σdx, Σdy, Σ|dx|, Σ|dy|)` accumulated per sub-patch into a
fixed 64-length vector.  With `msurf = true`, a second, larger Gaussian
centred on the whole descriptor window weights each sub-patch (the
"M-SURF" modification). -/
noncomputable def surfRaw (lvl : tevolution) (kpt : KeyPoint) (cs : ℝ × ℝ)
    (msurf : Bool) : Fin 64 → ℝ :=
  fun d =>
    let u : ℕ := (d : ℕ) / 16
    let v : ℕ := ((d : ℕ) % 16) / 4
    let stat : ℕ := (d : ℕ) % 4
    let sub := ∑ a ∈ Finset.range 5, ∑ b ∈ Finset.range 5,
      (let px : ℝ := ((u * 5 + a : ℕ) : ℝ) - 10
       let py : ℝ := ((v * 5 + b : ℕ) : ℝ) - 10
       let X : ℝ := (kpt.x : ℝ) + (kpt.size : ℝ) * (cs.1 * px - cs.2 * py)
       let Y : ℝ := (kpt.y : ℝ) + (kpt.size : ℝ) * (cs.2 * px + cs.1 * py)
       let dx : ℝ := cs.1 * (lvl.Lx.read (roundR X) (roundR Y) : ℝ) +
         cs.2 * (lvl.Ly.read (roundR X) (roundR Y) : ℝ)
       let dy : ℝ := -cs.2 * (lvl.Lx.read (roundR X) (roundR Y) : ℝ) +
         cs.1 * (lvl.Ly.read (roundR X) (roundR Y) : ℝ)
       gaussian px py (10/3) *
         (if stat = 0 then dx else if stat = 1 then dy
          else if stat = 2 then |dx| else |dy|))
    (if msurf then gaussian ((u : ℝ) * 5 - 15/2) ((v : ℝ) * 5 - 15/2) 5 else 1) * sub

/-- The L2 norm of a 64-vector. -/
noncomputable def l2norm (v : Fin 64 → ℝ) : ℝ := Real.sqrt (∑ i, v i ^ 2)

/-- Modelled from the spec: final L2 normalization of a SURF-family
descriptor. -/
noncomputable def normalize64 (v : Fin 64 → ℝ) : Fin 64 → ℝ :=
  fun i => v i / l2norm v

/-- `Get_SURF_Descriptor_Upright_64` (`AKAZE.h:206`): upright SURF,
no rotation, no window Gaussian. -/
noncomputable def Get_SURF_Descriptor_Upright_64 (lvl : tevolution) (kpt : KeyPoint) :
    Fin 64 → ℝ :=
  normalize64 (surfRaw lvl kpt (1, 0) false)

/-- `Get_SURF_Descriptor_64` (`AKAZE.h:207`): rotated SURF. -/
noncomputable def Get_SURF_Descriptor_64 (lvl : tevolution) (kpt : KeyPoint) :
    Fin 64 → ℝ :=
  normalize64 (surfRaw lvl kpt (Compute_Main_Orientation_SURF lvl kpt) false)

/-- `Get_MSURF_Upright_Descriptor_64` (`AKAZE.h:210`): upright M-SURF. -/
noncomputable def Get_MSURF_Upright_Descriptor_64 (lvl : tevolution) (kpt : KeyPoint) :
    Fin 64 → ℝ :=
  normalize64 (surfRaw lvl kpt (1, 0) true)

/-- `Get_MSURF_Descriptor_64` (`AKAZE.h:211`): rotated M-SURF. -/
noncomputable def Get_MSURF_Descriptor_64 (lvl : tevolution) (kpt : KeyPoint) :
    Fin 64 → ℝ :=
  normalize64 (surfRaw lvl kpt (Compute_Main_Orientation_SURF lvl kpt) true)

/-- A nonzero accumulated vector has positive L2 norm. -/
theorem l2norm_pos (v : Fin 64 → ℝ) (h : v ≠ 0) : 0 < l2norm v := by
  obtain ⟨i, hi⟩ := Function.ne_iff.mp h
  unfold l2norm
  apply Real.sqrt_pos.mpr
  have hterm : 0 < v i ^ 2 := sq_pos_of_ne_zero hi
  have hle : v i ^ 2 ≤ ∑ j, v j ^ 2 :=
    Finset.single_le_sum (fun j _ => sq_nonneg (v j)) (Finset.mem_univ i)
  linarith

/-- Normalizing a nonzero 64-vector yields a unit vector. -/
theorem l2norm_normalize64 (v : Fin 64 → ℝ) (h : v ≠ 0) :
    l2norm (normalize64 v) = 1 := by
  have hpos := l2norm_pos v h
  have hsq : l2norm v ^ 2 = ∑ i, v i ^ 2 := by
    unfold l2norm
    rw [Real.sq_sqrt]
    positivity
  unfold l2norm normalize64
  have : (∑ i, (v i / l2norm v) ^ 2) = (∑ i, v i ^ 2) / l2norm v ^ 2 := by
    rw [Finset.sum_div]
    congr 1
    funext i
    rw [div_pow]
  rw [this, ← hsq, div_self (pow_pos hpos 2).ne', Real.sqrt_one]



/-- The Gaussian kernel is everywhere positive. -/
theorem gaussian_pos (x y s : ℝ) : 0 < gaussian x y s := Real.exp_pos _

/-- C8: for every keypoint whose accumulated gradient responses are not
all zero, every SURF-family descriptor (SURF and M-SURF, upright and
rotated) is a fixed 64-length floating vector (`Fin 64 → ℝ` by type)
whose L2 norm equals `1`. -/
theorem C8_surf_family_unit_norm (lvl : tevolution) (kpt : KeyPoint)
    (h₁ : surfRaw lvl kpt (1, 0) false ≠ 0)
    (h₂ : surfRaw lvl kpt (Compute_Main_Orientation_SURF lvl kpt) false ≠ 0)
    (h₃ : surfRaw lvl kpt (1, 0) true ≠ 0)
    (h₄ : surfRaw lvl kpt (Compute_Main_Orientation_SURF lvl kpt) true ≠ 0) :
    l2norm (Get_SURF_Descriptor_Upright_64 lvl kpt) = 1 ∧
      l2norm (Get_SURF_Descriptor_64 lvl kpt) = 1 ∧
      l2norm (Get_MSURF_Upright_Descriptor_64 lvl kpt) = 1 ∧
      l2norm (Get_MSURF_Descriptor_64 lvl kpt) = 1 :=
  ⟨l2norm_normalize64 _ h₁, l2norm_normalize64 _ h₂,
    l2norm_normalize64 _ h₃, l2norm_normalize64 _ h₄⟩

/-- A 10×10 grid holding `1` everywhere. -/
def onesImage : Image := ⟨10, 10, fun _ _ => 1⟩

/-- An evolution level whose two gradient grids are constant `1`. -/
def gradOnesLevel : tevolution :=
  { tevoDefault with Lx := onesImage, Ly := onesImage }

/-- On `gradOnesLevel` with a non-degenerate rotation, the `Σ|dx|`
component of the accumulated SURF vector is positive. -/
theorem surfRaw_ones_pos (kpt : KeyPoint) (cs : ℝ × ℝ) (msurf : Bool)
    (hsum : 0 < cs.1 + cs.2) :
    0 < surfRaw gradOnesLevel kpt cs msurf ⟨2, by norm_num⟩ := by
  have hreadx : ∀ x y : ℤ, ((gradOnesLevel.Lx.read x y : ℚ) : ℝ) = 1 := by
    intro x y
    norm_num [gradOnesLevel, tevoDefault, onesImage, Image.read]
  have hready : ∀ x y : ℤ, ((gradOnesLevel.Ly.read x y : ℚ) : ℝ) = 1 := by
    intro x y
    norm_num [gradOnesLevel, tevoDefault, onesImage, Image.read]
  unfold surfRaw
  simp only [hreadx, hready, mul_one]
  norm_num
  have hsumpos : 0 < ∑ x ∈ Finset.range 5, ∑ y ∈ Finset.range 5,
      gaussian ((x : ℝ) - 10) ((y : ℝ) - 10) (10/3) * |cs.1 + cs.2| := by
    apply Finset.sum_pos
    · intro a _
      apply Finset.sum_pos
      · intro b _
        apply mul_pos (gaussian_pos _ _ _)
        rw [abs_pos]
        exact hsum.ne'
      · exact ⟨0, Finset.mem_range.mpr (by norm_num)⟩
    · exact ⟨0, Finset.mem_range.mpr (by norm_num)⟩
  split_ifs
  · exact mul_pos (gaussian_pos _ _ _) hsumpos
  · exact hsumpos

/-- On `gradOnesLevel`, the accumulated SURF vector is nonzero. -/
theorem surfRaw_ones_ne_zero (kpt : KeyPoint) (cs : ℝ × ℝ) (msurf : Bool)
    (hsum : 0 < cs.1 + cs.2) :
    surfRaw gradOnesLevel kpt cs msurf ≠ 0 := by
  intro h0
  have hpos := surfRaw_ones_pos kpt cs msurf hsum
  rw [h0] at hpos
  simp at hpos

/-- The orientation of any keypoint on `gradOnesLevel` has positive
components (the gradient sum points into the first quadrant). -/
theorem orientation_ones_pos (kpt : KeyPoint) :
    0 < (Compute_Main_Orientation_SURF gradOnesLevel kpt).1 +
      (Compute_Main_Orientation_SURF gradOnesLevel kpt).2 := by
  have hreadx : ∀ x y : ℤ, ((gradOnesLevel.Lx.read x y : ℚ) : ℝ) = 1 := by
    intro x y
    norm_num [gradOnesLevel, tevoDefault, onesImage, Image.read]
  have hready : ∀ x y : ℤ, ((gradOnesLevel.Ly.read x y : ℚ) : ℝ) = 1 := by
    intro x y
    norm_num [gradOnesLevel, tevoDefault, onesImage, Image.read]
  have hW : 0 < (orientationVec gradOnesLevel kpt).1 := by
    unfold orientationVec
    dsimp only
    apply Finset.sum_pos'
    · intro a _
      apply Finset.sum_nonneg
      intro b _
      split_ifs
      · apply mul_nonneg (gaussian_pos _ _ _).le
        rw [hreadx]
        norm_num
      · exact le_refl 0
    · refine ⟨6, Finset.mem_range.mpr (by norm_num), ?_⟩
      apply Finset.sum_pos'
      · intro b _
        split_ifs
        · apply mul_nonneg (gaussian_pos _ _ _).le
          rw [hreadx]
          norm_num
        · exact le_refl 0
      · refine ⟨6, Finset.mem_range.mpr (by norm_num), ?_⟩
        rw [if_pos (by norm_num)]
        rw [hreadx]
        rw [mul_one]
        exact gaussian_pos _ _ _
  have hW2 : 0 < (orientationVec gradOnesLevel kpt).2 := by
    unfold orientationVec
    dsimp only
    apply Finset.sum_pos'
    · intro a _
      apply Finset.sum_nonneg
      intro b _
      split_ifs
      · apply mul_nonneg (gaussian_pos _ _ _).le
        rw [hready]
        norm_num
      · exact le_refl 0
    · refine ⟨6, Finset.mem_range.mpr (by norm_num), ?_⟩
      apply Finset.sum_pos'
      · intro b _
        split_ifs
        · apply mul_nonneg (gaussian_pos _ _ _).le
          rw [hready]
          norm_num
        · exact le_refl 0
      · refine ⟨6, Finset.mem_range.mpr (by norm_num), ?_⟩
        rw [if_pos (by norm_num)]
        rw [hready]
        rw [mul_one]
        exact gaussian_pos _ _ _
  unfold Compute_Main_Orientation_SURF
  dsimp only
  have hnorm : 0 < Real.sqrt ((orientationVec gradOnesLevel kpt).1 ^ 2 +
      (orientationVec gradOnesLevel kpt).2 ^ 2) := by
    apply Real.sqrt_pos.mpr
    positivity
  have h1 := div_pos hW hnorm
  have h2 := div_pos hW2 hnorm
  linarith

/-- Witness for C8 on `gradOnesLevel`: all four accumulated vectors are
nonzero and all four descriptors have unit norm. -/
theorem C8_surf_family_unit_norm_witness :
    (surfRaw gradOnesLevel kpDefault (1, 0) false ≠ 0 ∧
      surfRaw gradOnesLevel kpDefault
        (Compute_Main_Orientation_SURF gradOnesLevel kpDefault) false ≠ 0 ∧
      surfRaw gradOnesLevel kpDefault (1, 0) true ≠ 0 ∧
      surfRaw gradOnesLevel kpDefault
        (Compute_Main_Orientation_SURF gradOnesLevel kpDefault) true ≠ 0) ∧
    (l2norm (Get_SURF_Descriptor_Upright_64 gradOnesLevel kpDefault) = 1 ∧
      l2norm (Get_SURF_Descriptor_64 gradOnesLevel kpDefault) = 1 ∧
      l2norm (Get_MSURF_Upright_Descriptor_64 gradOnesLevel kpDefault) = 1 ∧
      l2norm (Get_MSURF_Descriptor_64 gradOnesLevel kpDefault) = 1) := by
  have horient := orientation_ones_pos kpDefault
  have h₁ := surfRaw_ones_ne_zero kpDefault (1, 0) false (by norm_num)
  have h₂ := surfRaw_ones_ne_zero kpDefault
    (Compute_Main_Orientation_SURF gradOnesLevel kpDefault) false horient
  have h₃ := surfRaw_ones_ne_zero kpDefault (1, 0) true (by norm_num)
  have h₄ := surfRaw_ones_ne_zero kpDefault
    (Compute_Main_Orientation_SURF gradOnesLevel kpDefault) true horient
  exact ⟨⟨h₁, h₂, h₃, h₄⟩,
    C8_surf_family_unit_norm gradOnesLevel kpDefault h₁ h₂ h₃ h₄⟩



/- ------------------------------------------------------------------ -/
/- Descriptor extractor: M-LDB family (AKAZE.h:214-217, 234)           -/
/- ------------------------------------------------------------------ -/

/-- All ordered pairs `(x, y)` with `x` enumerated before `y`. -/
def listPairs {α : Type} : List α → List (α × α)
  | [] => []
  | x :: xs => (xs.map fun y => (x, y)) ++ listPairs xs

/-- Modelled from the spec: the M-LDB sampling cells — for each grid
division `g ∈ {2, 3, 4}` of the (scaled, possibly rotated) patch, the
`g × g` cells, identified by `(g, a, b)`. -/
def mldbCells (g : ℕ) : List (ℕ × ℕ × ℕ) :=
  (List.range g).flatMap fun a => (List.range g).map fun b => (g, a, b)

/-- Modelled from the spec: the exhaustive comparison set of the full
M-LDB descriptor — all pairs of distinct cells within the same grid
division. -/
def mldbPairs : List ((ℕ × ℕ × ℕ) × (ℕ × ℕ × ℕ)) :=
  listPairs (mldbCells 2) ++ listPairs (mldbCells 3) ++ listPairs (mldbCells 4)

/-- The full comparison list with a channel selector attached to every
cell pair: `nchannels` consecutive channel comparisons per pair. -/
def fullComparisons (nchannels : ℕ) : List (((ℕ × ℕ × ℕ) × (ℕ × ℕ × ℕ)) × ℕ) :=
  mldbPairs.flatMap fun p => (List.range nchannels).map fun c => (p, c)

/-- `generateDescriptorSubsample` (declared at `AKAZE.h:234`; body not in
the source tree).  Modelled from the spec: the statistically-selected
reduced comparison list of the subset descriptor, a pure function of the
configuration `(nbits, channels)` chosen once at construction time and
independent of any particular image; modelled as a deterministic,
configuration-only selection from the exhaustive list. -/
def generateDescriptorSubsample (nbits nchannels : ℕ) :
    List (((ℕ × ℕ × ℕ) × (ℕ × ℕ × ℕ)) × ℕ) :=
  (fullComparisons nchannels).take nbits

open scoped Classical in
/-- One descriptor bit: `1` when the first cell's mean exceeds the
second's. -/
noncomputable def bitOf (v₁ v₂ : ℝ) : Bool := if v₂ < v₁ then true else false

/-- Modelled from the spec: the mean value of one sampling cell in one
channel — channel `0` is intensity, `1` and `2` are the gradient
components rotated into the keypoint frame; the cell is scaled by the
pattern size and the keypoint scale and rotated by `(c, s)`, and every
read is clamped. -/
noncomputable def mldbCellValue (lvl : tevolution) (kpt : KeyPoint) (cs : ℝ × ℝ)
    (patternSize : ℚ) (channel : ℕ) (cell : ℕ × ℕ × ℕ) : ℝ :=
  let px : ℝ := ((2 * cell.2.1 + 1 : ℕ) : ℝ) / (cell.1 : ℝ) - 1
  let py : ℝ := ((2 * cell.2.2 + 1 : ℕ) : ℝ) / (cell.1 : ℝ) - 1
  let X : ℝ := (kpt.x : ℝ) + (patternSize : ℝ) * (kpt.size : ℝ) * (cs.1 * px - cs.2 * py)
  let Y : ℝ := (kpt.y : ℝ) + (patternSize : ℝ) * (kpt.size : ℝ) * (cs.2 * px + cs.1 * py)
  let gx : ℝ := (lvl.Lx.read (roundR X) (roundR Y) : ℝ)
  let gy : ℝ := (lvl.Ly.read (roundR X) (roundR Y) : ℝ)
  if channel = 0 then (lvl.Lt.read (roundR X) (roundR Y) : ℝ)
  else if channel = 1 then cs.1 * gx + cs.2 * gy
  else -cs.2 * gx + cs.1 * gy

/-- Modelled from the spec: the M-LDB bit-string over a given comparison
list — bit = 1 iff the first cell's mean exceeds the second's. -/
noncomputable def mldbBits (lvl : tevolution) (kpt : KeyPoint) (cs : ℝ × ℝ)
    (patternSize : ℚ) (comps : List (((ℕ × ℕ × ℕ) × (ℕ × ℕ × ℕ)) × ℕ)) : List Bool :=
  comps.map fun pc =>
    bitOf (mldbCellValue lvl kpt cs patternSize pc.2 pc.1.1)
      (mldbCellValue lvl kpt cs patternSize pc.2 pc.1.2)

/-- `Get_Upright_MLDB_Full_Descriptor` (`AKAZE.h:214`). -/
noncomputable def Get_Upright_MLDB_Full_Descriptor (lvl : tevolution) (kpt : KeyPoint)
    (patternSize : ℚ) (nchannels : ℕ) : List Bool :=
  mldbBits lvl kpt (1, 0) patternSize (fullComparisons nchannels)

/-- `Get_MLDB_Full_Descriptor` (`AKAZE.h:215`). -/
noncomputable def Get_MLDB_Full_Descriptor (lvl : tevolution) (kpt : KeyPoint)
    (patternSize : ℚ) (nchannels : ℕ) : List Bool :=
  mldbBits lvl kpt (Compute_Main_Orientation_SURF lvl kpt) patternSize
    (fullComparisons nchannels)

/-- `Get_Upright_MLDB_Descriptor_Subset` (`AKAZE.h:216`). -/
noncomputable def Get_Upright_MLDB_Descriptor_Subset (lvl : tevolution) (kpt : KeyPoint)
    (patternSize : ℚ) (nbits nchannels : ℕ) : List Bool :=
  mldbBits lvl kpt (1, 0) patternSize (generateDescriptorSubsample nbits nchannels)

/-- `Get_MLDB_Descriptor_Subset` (`AKAZE.h:217`). -/
noncomputable def Get_MLDB_Descriptor_Subset (lvl : tevolution) (kpt : KeyPoint)
    (patternSize : ℚ) (nbits nchannels : ℕ) : List Bool :=
  mldbBits lvl kpt (Compute_Main_Orientation_SURF lvl kpt) patternSize
    (generateDescriptorSubsample nbits nchannels)

/- ------------------------------------------------------------------ -/
/- Descriptor modes and dispatch (AKAZE.h:104-108, 202) — Claims C7,C9 -/
/- ------------------------------------------------------------------ -/

/-- The eight descriptor modes of the spec's `describe` contract. -/
inductive DescriptorMode where
  | SURF_UPRIGHT
  | SURF
  | MSURF_UPRIGHT
  | MSURF
  | MLDB_FULL_UPRIGHT
  | MLDB_FULL
  | MLDB_SUBSET_UPRIGHT
  | MLDB_SUBSET
deriving DecidableEq

/-- A descriptor: a fixed 64-length floating vector for the SURF family,
a bit-string for the M-LDB family. -/
inductive Descriptor where
  | vec : (Fin 64 → ℝ) → Descriptor
  | bits : List Bool → Descriptor

/-- The mode encoding of the `descriptor_` field (`AKAZE.h:104-108`):
`0 → SURF_UPRIGHT`, `1 → SURF`, `2 → M-SURF_UPRIGHT`, `3 → M-SURF`,
`4 → M-LDB_UPRIGHT`, `5 → M-LDB`; for the two M-LDB values,
`descriptor_size_ = 0` selects the full descriptor (`AKAZE.h:108`) and a
nonzero size the subset variant. -/
def decodeMode (descriptor descriptor_size : ℤ) : Option DescriptorMode :=
  if descriptor = 0 then some .SURF_UPRIGHT
  else if descriptor = 1 then some .SURF
  else if descriptor = 2 then some .MSURF_UPRIGHT
  else if descriptor = 3 then some .MSURF
  else if descriptor = 4 then
    (if descriptor_size = 0 then some .MLDB_FULL_UPRIGHT else some .MLDB_SUBSET_UPRIGHT)
  else if descriptor = 5 then
    (if descriptor_size = 0 then some .MLDB_FULL else some .MLDB_SUBSET)
  else none

/-- Modelled from the spec: the index of the evolution level whose scale
is closest to `σ` (first such level on ties). -/
def nearestLevelIdx (evo : List tevolution) (σ : ℚ) : ℕ :=
  (List.range evo.length).foldl
    (fun best l =>
      if |(evo.getD l tevoDefault).esigma - σ| <
          |(evo.getD best tevoDefault).esigma - σ| then l else best) 0

/-- The per-level dispatch of the eight descriptor modes. -/
noncomputable def levelDescriptor (lvl : tevolution) (mode : DescriptorMode)
    (patternSize : ℚ) (nbits nchannels : ℕ) (kpt : KeyPoint) : Descriptor :=
  match mode with
  | .SURF_UPRIGHT => .vec (Get_SURF_Descriptor_Upright_64 lvl kpt)
  | .SURF => .vec (Get_SURF_Descriptor_64 lvl kpt)
  | .MSURF_UPRIGHT => .vec (Get_MSURF_Upright_Descriptor_64 lvl kpt)
  | .MSURF => .vec (Get_MSURF_Descriptor_64 lvl kpt)
  | .MLDB_FULL_UPRIGHT =>
      .bits (Get_Upright_MLDB_Full_Descriptor lvl kpt patternSize nchannels)
  | .MLDB_FULL => .bits (Get_MLDB_Full_Descriptor lvl kpt patternSize nchannels)
  | .MLDB_SUBSET_UPRIGHT =>
      .bits (Get_Upright_MLDB_Descriptor_Subset lvl kpt patternSize nbits nchannels)
  | .MLDB_SUBSET =>
      .bits (Get_MLDB_Descriptor_Subset lvl kpt patternSize nbits nchannels)

/-- Modelled from the spec: `describe(keypoint, evolution sequence, mode)
→ descriptor` — all descriptor computations read from the evolution level
whose scale is closest to the keypoint's σ. -/
noncomputable def describe (evo : List tevolution) (mode : DescriptorMode)
    (patternSize : ℚ) (nbits nchannels : ℕ) (kpt : KeyPoint) : Descriptor :=
  levelDescriptor (evo.getD (nearestLevelIdx evo kpt.size) tevoDefault) mode
    patternSize nbits nchannels kpt



/-- Flat-mapping a constant-length block multiplies the length. -/
theorem length_flatMap_range {α β : Type} (l : List α) (n : ℕ) (f : α → ℕ → β) :
    (l.flatMap fun p => (List.range n).map (f p)).length = l.length * n := by
  induction l with
  | nil => simp
  | cons x xs ih => simp [ih, Nat.succ_mul, Nat.add_comm]

/-- The exhaustive M-LDB comparison list has `6 + 36 + 120 = 162` cell
pairs. -/
theorem mldbPairs_length : mldbPairs.length = 162 := rfl

theorem fullComparisons_length (nchannels : ℕ) :
    (fullComparisons nchannels).length = 162 * nchannels := by
  unfold fullComparisons
  rw [length_flatMap_range, mldbPairs_length]

/-- C9: `describe` accepts exactly the eight descriptor modes — the
`descriptor_` codes `0 … 5` are accepted and nothing else, with the two
M-LDB codes split into full (`descriptor_size = 0`) and subset
(`descriptor_size ≠ 0`) variants — and dispatches each mode to the
corresponding computation at the nearest-scale level, producing a
floating 64-vector for the SURF-family modes and a fixed-width bit-string
for the M-LDB-family modes. -/
theorem C9_describe_modes (d size : ℤ) (evo : List tevolution) (psize : ℚ)
    (nbits nchannels : ℕ) (kpt : KeyPoint) :
    ((decodeMode d size).isSome = true ↔ 0 ≤ d ∧ d ≤ 5) ∧
    (decodeMode 0 size = some .SURF_UPRIGHT ∧
      decodeMode 1 size = some .SURF ∧
      decodeMode 2 size = some .MSURF_UPRIGHT ∧
      decodeMode 3 size = some .MSURF ∧
      decodeMode 4 0 = some .MLDB_FULL_UPRIGHT ∧
      decodeMode 5 0 = some .MLDB_FULL ∧
      (size ≠ 0 → decodeMode 4 size = some .MLDB_SUBSET_UPRIGHT) ∧
      (size ≠ 0 → decodeMode 5 size = some .MLDB_SUBSET)) ∧
    (describe evo .SURF_UPRIGHT psize nbits nchannels kpt =
        .vec (Get_SURF_Descriptor_Upright_64
          (evo.getD (nearestLevelIdx evo kpt.size) tevoDefault) kpt) ∧
      describe evo .SURF psize nbits nchannels kpt =
        .vec (Get_SURF_Descriptor_64
          (evo.getD (nearestLevelIdx evo kpt.size) tevoDefault) kpt) ∧
      describe evo .MSURF_UPRIGHT psize nbits nchannels kpt =
        .vec (Get_MSURF_Upright_Descriptor_64
          (evo.getD (nearestLevelIdx evo kpt.size) tevoDefault) kpt) ∧
      describe evo .MSURF psize nbits nchannels kpt =
        .vec (Get_MSURF_Descriptor_64
          (evo.getD (nearestLevelIdx evo kpt.size) tevoDefault) kpt)) ∧
    (describe evo .MLDB_FULL_UPRIGHT psize nbits nchannels kpt =
        .bits (Get_Upright_MLDB_Full_Descriptor
          (evo.getD (nearestLevelIdx evo kpt.size) tevoDefault) kpt psize nchannels) ∧
      describe evo .MLDB_FULL psize nbits nchannels kpt =
        .bits (Get_MLDB_Full_Descriptor
          (evo.getD (nearestLevelIdx evo kpt.size) tevoDefault) kpt psize nchannels) ∧
      describe evo .MLDB_SUBSET_UPRIGHT psize nbits nchannels kpt =
        .bits (Get_Upright_MLDB_Descriptor_Subset
          (evo.getD (nearestLevelIdx evo kpt.size) tevoDefault) kpt psize nbits nchannels) ∧
      describe evo .MLDB_SUBSET psize nbits nchannels kpt =
        .bits (Get_MLDB_Descriptor_Subset
          (evo.getD (nearestLevelIdx evo kpt.size) tevoDefault) kpt psize nbits nchannels)) ∧
    (∀ lvl : tevolution,
      (Get_Upright_MLDB_Full_Descriptor lvl kpt psize nchannels).length =
          162 * nchannels ∧
        (Get_MLDB_Full_Descriptor lvl kpt psize nchannels).length = 162 * nchannels ∧
        (Get_Upright_MLDB_Descriptor_Subset lvl kpt psize nbits nchannels).length =
          min nbits (162 * nchannels) ∧
        (Get_MLDB_Descriptor_Subset lvl kpt psize nbits nchannels).length =
          min nbits (162 * nchannels)) := by
  refine ⟨?_, ?_, ?_, ?_, ?_⟩
  · unfold decodeMode
    split_ifs <;> simp_all
    all_goals omega
  · refine ⟨rfl, rfl, rfl, rfl, rfl, rfl, ?_, ?_⟩
    · intro h
      simp [decodeMode, h]
    · intro h
      simp [decodeMode, h]
  · exact ⟨rfl, rfl, rfl, rfl⟩
  · exact ⟨rfl, rfl, rfl, rfl⟩
  · intro lvl
    refine ⟨?_, ?_, ?_, ?_⟩
    all_goals
      simp [Get_Upright_MLDB_Full_Descriptor, Get_MLDB_Full_Descriptor,
        Get_Upright_MLDB_Descriptor_Subset, Get_MLDB_Descriptor_Subset, mldbBits,
        generateDescriptorSubsample, fullComparisons_length, List.length_take]

/-- Witness for C9 at `d = 3`, `size = 486`. -/
theorem C9_describe_modes_witness :
    ((486 : ℤ) ≠ 0 ∧
      decodeMode 4 486 = some .MLDB_SUBSET_UPRIGHT ∧
      decodeMode 5 486 = some .MLDB_SUBSET) ∧
    ((decodeMode 3 486).isSome = true ↔ 0 ≤ (3 : ℤ) ∧ (3 : ℤ) ≤ 5) ∧
    describe [] .MLDB_SUBSET_UPRIGHT 10 486 3 kpDefault =
      .bits (Get_Upright_MLDB_Descriptor_Subset
        ([].getD (nearestLevelIdx [] (kpDefault).size) tevoDefault) kpDefault 10 486 3) := by
  have h := C9_describe_modes 3 486 [] 10 486 3 kpDefault
  have hne : (486 : ℤ) ≠ 0 := by norm_num
  exact ⟨⟨hne, h.2.1.2.2.2.2.2.2.1 hne, h.2.1.2.2.2.2.2.2.2 hne⟩, h.1,
    h.2.2.2.1.2.2.1⟩



/- ------------------------------------------------------------------ -/
/- The AKAZE pipeline state — Claims C5, C6, C7                        -/
/- ------------------------------------------------------------------ -/

/-- The mutable state of the `AKAZE` class (`AKAZE.h:88-134`):
configuration fields, the evolution sequence `evolution_`, and the timing
diagnostics (`tdetector_`, `tdescriptor_`, …), which the pipeline stages
overwrite with wall-clock readings modelled as explicit `clock` inputs. -/
structure AKAZEState where
  evolution_ : List tevolution
  dthreshold_ : ℚ
  suppression_mult_ : ℚ
  descriptor_ : ℤ
  descriptor_size_ : ℤ
  descriptor_channels_ : ℕ
  descriptor_pattern_size_ : ℚ
  tkcontrast_ : ℚ
  tscale_ : ℚ
  tderivatives_ : ℚ
  tdetector_ : ℚ
  tsubpixel_ : ℚ
  tdescriptor_ : ℚ

/-- Modelled from the spec: `Feature_Detection` (`AKAZE.h:194`; body not
in the source tree) — recompute the derivative and response grids of every
level from that level's own image (`Compute_Multiscale_Derivatives`,
`Compute_Determinant_Hessian_Response`), find the per-level extrema,
refine them to subpixel accuracy, suppress close duplicates, and record
the elapsed time. -/
def Feature_Detection (clock : ℚ) (s : AKAZEState) : AKAZEState × List KeyPoint :=
  let evo := s.evolution_.map computeLevelResponse
  ({ s with evolution_ := evo, tdetector_ := clock },
    Feature_Suppression_Distance s.suppression_mult_
      (Do_Subpixel_Refinement evo (Find_Scale_Space_Extrema evo s.dthreshold_)))

/-- Modelled from the spec: `Compute_Descriptors` (`AKAZE.h:202`; body not
in the source tree) — dispatch the configured descriptor mode once per
keypoint, producing one descriptor per keypoint in input order, and record
the elapsed time.  An out-of-range `descriptor_` code produces no
descriptors. -/
noncomputable def Compute_Descriptors (clock : ℚ) (s : AKAZEState)
    (kpts : List KeyPoint) : AKAZEState × List Descriptor :=
  ({ s with tdescriptor_ := clock },
    match decodeMode s.descriptor_ s.descriptor_size_ with
    | none => []
    | some mode => kpts.map (describe s.evolution_ mode s.descriptor_pattern_size_
        s.descriptor_size_.toNat s.descriptor_channels_))

/-- Refilling the lazily-computed derivative/response grids of a level is
idempotent: they are functions of the level's own image and scale only. -/
theorem computeLevelResponse_idem (l : tevolution) :
    computeLevelResponse (computeLevelResponse l) = computeLevelResponse l := rfl

/-- C6: detection and description are deterministic — running feature
detection and descriptor computation a second time (on the state the
first run produced, under arbitrary different clock readings) yields
identical keypoint records and identical descriptors. -/
theorem C6_detection_description_deterministic (t₁ t₂ t₃ t₄ : ℚ) (s : AKAZEState) :
    (Feature_Detection t₃ (Compute_Descriptors t₂ (Feature_Detection t₁ s).1
        (Feature_Detection t₁ s).2).1).2 = (Feature_Detection t₁ s).2 ∧
    (Compute_Descriptors t₄
        (Feature_Detection t₃ (Compute_Descriptors t₂ (Feature_Detection t₁ s).1
          (Feature_Detection t₁ s).2).1).1
        (Feature_Detection t₃ (Compute_Descriptors t₂ (Feature_Detection t₁ s).1
          (Feature_Detection t₁ s).2).1).2).2 =
      (Compute_Descriptors t₂ (Feature_Detection t₁ s).1 (Feature_Detection t₁ s).2).2 := by
  have hidem : (s.evolution_.map computeLevelResponse).map computeLevelResponse =
      s.evolution_.map computeLevelResponse := by
    rw [List.map_map]
    exact List.map_congr_left fun a _ => computeLevelResponse_idem a
  constructor
  · simp only [Feature_Detection, Compute_Descriptors]
    rw [hidem]
  · simp only [Feature_Detection, Compute_Descriptors]
    rw [hidem]

/-- C7: for every keypoint and every descriptor mode, descriptor
computation reads only from the evolution level whose scale is closest to
the keypoint's σ — two evolution sequences that agree on that level yield
the same descriptor — and descriptor computation never mutates the
evolution sequence. -/
theorem C7_descriptor_reads_nearest_level (mode : DescriptorMode) (psize : ℚ)
    (nbits nchannels : ℕ) (kpt : KeyPoint) (evo₁ evo₂ : List tevolution)
    (h : evo₁.getD (nearestLevelIdx evo₁ kpt.size) tevoDefault =
      evo₂.getD (nearestLevelIdx evo₂ kpt.size) tevoDefault) :
    describe evo₁ mode psize nbits nchannels kpt =
        describe evo₂ mode psize nbits nchannels kpt ∧
      ∀ (clock : ℚ) (st : AKAZEState) (kpts : List KeyPoint),
        (Compute_Descriptors clock st kpts).1.evolution_ = st.evolution_ := by
  constructor
  · unfold describe
    rw [h]
  · intro clock st kpts
    rfl

/-- A level of scale `2`, shared by the two evolution sequences of the C7
witness. -/
def levelScaleTwo : tevolution := { tevoDefault with esigma := 2 }

/-- A level of scale `0` carrying a different image than `tevoDefault`. -/
def levelScaleZeroPrime : tevolution := { tevoDefault with Lt := onesImage }

/-- A keypoint of scale `2`. -/
def kpScaleTwo : KeyPoint := ⟨0, 0, 2, 0, 0, 0⟩

/-- Witness for C7: two evolution sequences that differ in their first
level but share the level nearest to the keypoint's scale produce the
same descriptor. -/
theorem C7_descriptor_reads_nearest_level_witness :
    ([tevoDefault, levelScaleTwo].getD
        (nearestLevelIdx [tevoDefault, levelScaleTwo] (kpScaleTwo).size) tevoDefault =
      [levelScaleZeroPrime, levelScaleTwo].getD
        (nearestLevelIdx [levelScaleZeroPrime, levelScaleTwo] (kpScaleTwo).size)
        tevoDefault) ∧
    describe [tevoDefault, levelScaleTwo] .MSURF 10 486 3 kpScaleTwo =
      describe [levelScaleZeroPrime, levelScaleTwo] .MSURF 10 486 3 kpScaleTwo := by
  have h₁ : nearestLevelIdx [tevoDefault, levelScaleTwo] (kpScaleTwo).size = 1 := by
    norm_num [nearestLevelIdx, List.range_succ, tevoDefault, levelScaleTwo, kpScaleTwo,
      List.getD]
  have h₂ : nearestLevelIdx [levelScaleZeroPrime, levelScaleTwo] (kpScaleTwo).size = 1 := by
    norm_num [nearestLevelIdx, List.range_succ, tevoDefault, levelScaleZeroPrime,
      levelScaleTwo, kpScaleTwo, List.getD]
  have h : [tevoDefault, levelScaleTwo].getD
      (nearestLevelIdx [tevoDefault, levelScaleTwo] (kpScaleTwo).size) tevoDefault =
      [levelScaleZeroPrime, levelScaleTwo].getD
        (nearestLevelIdx [levelScaleZeroPrime, levelScaleTwo] (kpScaleTwo).size)
        tevoDefault := by
    rw [h₁, h₂]
    simp [List.getD]
  exact ⟨h, (C7_descriptor_reads_nearest_level .MSURF 10 486 3 kpScaleTwo
    [tevoDefault, levelScaleTwo] [levelScaleZeroPrime, levelScaleTwo] h).1⟩

/-- C5: every sample read is clamped into valid image bounds before the
pixel/gradient value is fetched — for any image with at least one valid
row and column and any sample location (in particular the out-of-range
locations produced near image borders), the index actually read lies in
`[0, width-1] × [0, height-1]`, and the read simply returns the grid value
at that clamped index (clamping, never rejection, so the computation
always completes). -/
theorem C5_reads_clamped_in_bounds (img : Image) (x y : ℤ)
    (hw : 1 ≤ img.width) (hh : 1 ≤ img.height) :
    0 ≤ (img.readIndex x y).1 ∧ (img.readIndex x y).1 ≤ img.width - 1 ∧
      0 ≤ (img.readIndex x y).2 ∧ (img.readIndex x y).2 ≤ img.height - 1 ∧
      img.read x y = img.data (img.readIndex x y).1 (img.readIndex x y).2 := by
  unfold Image.readIndex Image.read check_descriptor_limits
  dsimp only
  split_ifs <;> refine ⟨by omega, by omega, by omega, by omega, rfl⟩

/-- Witness for C5 on the 10×10 grid, at a sample location far outside
the image (as produced by a keypoint near the border). -/
theorem C5_reads_clamped_in_bounds_witness :
    ((1 : ℤ) ≤ onesImage.width ∧ (1 : ℤ) ≤ onesImage.height) ∧
      (0 ≤ (onesImage.readIndex (-7) 25).1 ∧
        (onesImage.readIndex (-7) 25).1 ≤ onesImage.width - 1 ∧
        0 ≤ (onesImage.readIndex (-7) 25).2 ∧
        (onesImage.readIndex (-7) 25).2 ≤ onesImage.height - 1 ∧
        onesImage.read (-7) 25 =
          onesImage.data (onesImage.readIndex (-7) 25).1
            (onesImage.readIndex (-7) 25).2) := by
  refine ⟨⟨?_, ?_⟩, C5_reads_clamped_in_bounds onesImage (-7) 25 ?_ ?_⟩ <;>
    norm_num [onesImage]


end AKAZE
